import Mathlib

/-!
Verification development for `tubes.py`: an expression-tree process
execution engine with `Command` / `And` / `Pipe` nodes, a `Result` merge
algebra, and a single-use event-loop driver.

The embedding has two layers, both translated from the source:

* A denotational layer (`Result`, `Expression`, `exec`, `result`):
  `exec` mirrors the `_exec` coroutines of `Command`, `And` and `Pipe`
  (src/tubes.py lines 30-86).  OS process behaviour is a parameter
  `Env`: for each argv and stream triple it yields either a spawn
  failure (`create_subprocess_exec` raising) or the process exit status
  and produced output bytes.  `exec` also returns the list of spawn
  events that occurred (which subprocesses were created, with which
  stream triples) and threads a counter modelling `os.pipe` returning
  fresh file descriptors.

* A trace layer (`Ev`, `Interleave`, `pipeTaskTraces`) for the
  scheduling behaviour of `Pipe._exec` (lines 72-86): the left and the
  right child run as two event-loop tasks created before either is
  awaited; `add_done_callback` closes the corresponding pipe end when a
  task completes (also when it completes with an exception), and callbacks
  registered on a future run before the task awaiting that future is
  resumed.  `Pipe._exec` awaits the right future first, so when the
  right task fails its exception propagates out of `Pipe._exec` at that
  point, while the left task keeps running in the loop.
-/

namespace Tubes

/-- Bytes of a process stream, modelled as a list of byte values. -/
abbrev Bytes := List Nat

/-- A stdin/stdout/stderr endpoint as passed to `_exec` in the source:
`None` (inherit the parent's stream), `subprocess.PIPE` (ask the
launcher to capture), or an integer file descriptor from `os.pipe`. -/
inductive Stream where
  | inherit : Stream
  | capture : Stream
  | fd : Nat → Stream
deriving DecidableEq, Repr

/-- `Result` namedtuple from src/tubes.py lines 138-142:
`(returncode, stdout, stderr)`, where `stdout` / `stderr` are `None`
when the stream was not captured. -/
structure Result where
  returncode : Int
  stdout : Option Bytes
  stderr : Option Bytes
deriving DecidableEq, Repr

/-- `Result._concat` (lines 150-156): `None` acts as the absent stream. -/
def Result.concat (out1 out2 : Option Bytes) : Option Bytes :=
  match out1 with
  | none => out2
  | some b1 =>
    match out2 with
    | none => some b1
    | some b2 => some (b1 ++ b2)

/-- `Result.merge` (lines 145-148): take the second return code and
concatenate both outputs. -/
def Result.merge (self second : Result) : Result :=
  ⟨second.returncode,
   Result.concat self.stdout second.stdout,
   Result.concat self.stderr second.stderr⟩

/-- A spawn failure (`create_subprocess_exec` raising `OSError` /
`FileNotFoundError`), carrying a message. -/
inductive SpawnError where
  | oserror : String → SpawnError
deriving DecidableEq, Repr

/-- What one OS process does when spawned: its exit status and the bytes
it writes to stdout and stderr. -/
structure ProcBehavior where
  returncode : Int
  out : Bytes
  err : Bytes
deriving DecidableEq, Repr

/-- The OS: for each argv and stream triple, either a spawn failure or
the process behaviour.  This is the external collaborator behind
`trollius.subprocess.create_subprocess_exec`. -/
def Env := List String → Stream → Stream → Stream → Except SpawnError ProcBehavior

/-- The expression tree: `Command`, `And`, `Pipe` (src/tubes.py
lines 30-86). -/
inductive Expression where
  | command : List String → Expression
  | and : Expression → Expression → Expression
  | pipe : Expression → Expression → Expression
deriving DecidableEq, Repr

/-- A record of one `create_subprocess_exec` call: the argv and the
stream triple it was given. -/
structure Spawned where
  argv : List String
  stdin : Stream
  stdout : Stream
  stderr : Stream
deriving DecidableEq, Repr

/-- `Command._exec` (lines 34-40): spawn the process, `communicate`, and
return `Result(p.returncode, out, err)`.  `communicate` yields captured
bytes only for a stream opened with `subprocess.PIPE`; otherwise that
field of the `Result` is `None`. -/
def Command.exec (env : Env) (argv : List String)
    (stdin stdout stderr : Stream) : Except SpawnError Result :=
  match env argv stdin stdout stderr with
  | .error e => .error e
  | .ok p =>
    .ok ⟨p.returncode,
         if stdout = Stream.capture then some p.out else none,
         if stderr = Stream.capture then some p.err else none⟩

/-- The recursive `_exec` of the three node types, denotationally.
Arguments: environment, expression, stdin, stdout, stderr, and the next
free file descriptor (modelling `os.pipe` freshness).  Returns the
outcome (a `Result` or a propagated `SpawnError`), the next free
descriptor, and the list of spawn events that occurred.

* `command` (lines 34-40): one spawn event; no descriptors allocated.
* `and` (lines 49-59): run left; if its returncode is non-zero return
  its `Result` unchanged and never start right; otherwise run right
  with the same triple and return `lresult.merge(rresult)`.  An
  exception from either side propagates.
* `pipe` (lines 62-86): `os.pipe()` yields fresh `(read_pipe,
  write_pipe)`; left runs with the write end as stdout, right with the
  read end as stdin; both tasks always run (they are started before
  either is awaited).  The right future is awaited first, so a failure
  of the right task propagates even when the left task also fails;
  otherwise a failure of the left task propagates; otherwise the
  returncode is the rightmost non-zero one (lines 82-84) and the value
  is `lresult.merge(rresult)._replace(returncode=rightmosterror)`. -/
def exec (env : Env) :
    Expression → Stream → Stream → Stream → Nat →
    Except SpawnError Result × Nat × List Spawned
  | .command argv, i, o, e, c =>
    (Command.exec env argv i o e, c, [⟨argv, i, o, e⟩])
  | .and l r, i, o, e, c =>
    match exec env l i o e c with
    | (.error err, c1, lt) => (.error err, c1, lt)
    | (.ok lres, c1, lt) =>
      if lres.returncode ≠ 0 then (.ok lres, c1, lt)
      else
        match exec env r i o e c1 with
        | (.error err, c2, rt) => (.error err, c2, lt ++ rt)
        | (.ok rres, c2, rt) => (.ok (lres.merge rres), c2, lt ++ rt)
  | .pipe l r, i, o, e, c =>
    let readFd := c
    let writeFd := c + 1
    match exec env l i (Stream.fd writeFd) e (c + 2) with
    | (lout, c1, lt) =>
      match exec env r (Stream.fd readFd) o e c1 with
      | (rout, c2, rt) =>
        match rout with
        | .error err => (.error err, c2, lt ++ rt)
        | .ok rres =>
          match lout with
          | .error err => (.error err, c2, lt ++ rt)
          | .ok lres =>
            let rightmosterror :=
              if rres.returncode = 0 then lres.returncode
              else rres.returncode
            (.ok { lres.merge rres with returncode := rightmosterror },
             c2, lt ++ rt)

/-! ### The driver (`ExpressionBase.result`, `run_single_use_loop`) -/

/-- The process-global state the driver touches: the id the next
`trollius.new_event_loop()` call will produce (a freshness counter) and
the currently installed event loop (`trollius.get_event_loop` /
`set_event_loop`). -/
structure DriverState where
  nextLoopId : Nat
  current : Option Nat
deriving DecidableEq, Repr

/-- What the driver did to the event loop it created for one call:
which loop it was, and whether it was closed by the end of the call. -/
structure LoopRecord where
  id : Nat
  closed : Bool
deriving DecidableEq, Repr

/-- `run_single_use_loop` (lines 8-16): install `loop`, run the task to
completion, and in a `finally` block restore the previous loop and
close `loop`; the task's outcome (value or exception) propagates either
way.  Returns the outcome, the restored current loop, and the record of
what happened to the loop. -/
def run_single_use_loop (oldLoop : Option Nat) (loopId : Nat)
    (task : Except SpawnError Result) :
    Except SpawnError Result × Option Nat × LoopRecord :=
  (task, oldLoop, ⟨loopId, true⟩)

/-- `ExpressionBase.result` (lines 24-27): create a fresh event loop,
build the root task `self._exec(loop, None, subprocess.PIPE, None)` —
inherit stdin, capture stdout, inherit stderr, next free descriptor 0 —
and run it on the single-use loop. -/
def result (env : Env) (expr : Expression) (st : DriverState) :
    Except SpawnError Result × DriverState × LoopRecord :=
  let loopId := st.nextLoopId
  let task := (exec env expr Stream.inherit Stream.capture Stream.inherit 0).1
  let (ret, cur, rec) := run_single_use_loop st.current loopId task
  (ret, ⟨st.nextLoopId + 1, cur⟩, rec)

/-! ### The trace layer for `Pipe._exec` scheduling (lines 62-86) -/

/-- An observable scheduling event inside one event loop:
`close fd` is `os.close(fd)` run by a done-callback; `spawn argv` marks
a step of a child task (a subprocess creation); `ret id` marks the
completion (normal or exceptional) of the `Pipe._exec` coroutine of
node `id`. -/
inductive Ev where
  | close : Nat → Ev
  | spawn : List String → Ev
  | ret : Nat → Ev
deriving DecidableEq, Repr

/-- `Interleave a b t`: `t` is an interleaving of the two sequential
event streams `a` and `b` — the per-stream order is preserved, the
scheduler chooses the rest. -/
inductive Interleave : List Ev → List Ev → List Ev → Prop where
  | nil : Interleave [] [] []
  | left : ∀ {x : Ev} {a b t : List Ev},
      Interleave a b t → Interleave (x :: a) b (x :: t)
  | right : ∀ {x : Ev} {a b t : List Ev},
      Interleave a b t → Interleave a (x :: b) (x :: t)

/-- The set of complete event traces of one `Pipe._exec` run
(lines 72-86), given the traces `lt` and `rt` of the left and right
child tasks and whether the right task failed (`rerr`).  `cw` / `cr`
are the `os.close` events of the write and read pipe ends and `rv` is
the completion of this `Pipe._exec` coroutine.

Both child tasks are created before either future is awaited
(lines 73-77), so their streams interleave arbitrarily.  The
done-callback added on a future (lines 75 and 78) runs when that task
completes — normally or with an exception — and it was registered
before the awaiting coroutine's wakeup, so it runs before that
coroutine resumes.  Hence the left task stream is `lt ++ [cw]` and the
right task stream is `rt ++ [cr]`.  `Pipe._exec` awaits the right
future first (line 79):

* if the right task failed, the coroutine finishes (`rv`) by
  re-raising right after resuming, i.e. right after `cr`, while the
  left task keeps running in the loop: the right stream is
  `rt ++ [cr, rv]`;
* otherwise the coroutine also awaits the left future, so it finishes
  only after both tasks are done and both ends are closed: `rv` is the
  last event. -/
def pipeTaskTraces (lt rt : List Ev) (rerr : Bool) (cw cr rv : Ev)
    (t : List Ev) : Prop :=
  match rerr with
  | true => Interleave (lt ++ [cw]) (rt ++ [cr, rv]) t
  | false => ∃ t0, Interleave (lt ++ [cw]) (rt ++ [cr]) t0 ∧ t = t0 ++ [rv]

/-- `closedBefore c r t`: scanning the trace `t`, the close event `c`
occurs strictly before the first occurrence of the completion event
`r`. -/
def closedBefore (c r : Ev) : List Ev → Bool
  | [] => false
  | x :: xs => if x = r then false else if x = c then true else closedBefore c r xs

/-- The property claimed of `Pipe._exec`: on every admissible trace,
both pipe ends are closed before the coroutine completes. -/
def bothClosedBeforeRet (lt rt : List Ev) (rerr : Bool)
    (cw cr rv : Ev) : Prop :=
  ∀ t, pipeTaskTraces lt rt rerr cw cr rv t →
    closedBefore cw rv t = true ∧ closedBefore cr rv t = true

/-! ### Spec-side model of the merge algebra (for the refinement claim) -/

/-- Spec-side `concat`, written from the spec's words: an absent
(uncaptured) stream is the identity element — return the other operand
unchanged; if both are absent the result is absent. -/
def concatSpecModel (x y : Option Bytes) : Option Bytes :=
  match x, y with
  | none, none => none
  | none, some b => some b
  | some a, none => some a
  | some a, some b => some (a ++ b)

/-- Spec-side `merge`, written from the spec's words:
`a.merge(b) = Result(returncode = b.returncode,
stdout = concat(a.stdout, b.stdout), stderr = concat(a.stderr,
b.stderr))`. -/
def mergeSpecModel (a b : Result) : Result :=
  ⟨b.returncode,
   concatSpecModel a.stdout b.stdout,
   concatSpecModel a.stderr b.stderr⟩

/-- A small concrete OS environment used to instantiate theorems:
`["false"]` exits 1 with no output, `["boom"]` fails to spawn, anything
else exits 0 writing byte 120 to stdout and byte 121 to stderr. -/
def envDemo : Env := fun argv _ _ _ =>
  if argv = ["false"] then .ok ⟨1, [], []⟩
  else if argv = ["boom"] then .error (.oserror "No such file or directory")
  else .ok ⟨0, [120], [121]⟩

/-! ### Interleaving lemmas -/

theorem Interleave.mem {a b t : List Ev} (h : Interleave a b t) :
    ∀ {x : Ev}, x ∈ t → x ∈ a ∨ x ∈ b := by
  induction h with
  | nil => intro x hx; cases hx
  | left h ih =>
    intro x hx
    rcases List.mem_cons.mp hx with rfl | hx
    · exact Or.inl (List.mem_cons_self _ _)
    · rcases ih hx with h1 | h1
      · exact Or.inl (List.mem_cons_of_mem _ h1)
      · exact Or.inr h1
  | right h ih =>
    intro x hx
    rcases List.mem_cons.mp hx with rfl | hx
    · exact Or.inr (List.mem_cons_self _ _)
    · rcases ih hx with h1 | h1
      · exact Or.inl h1
      · exact Or.inr (List.mem_cons_of_mem _ h1)

theorem Interleave.symm {a b t : List Ev} (h : Interleave a b t) :
    Interleave b a t := by
  induction h with
  | nil => exact .nil
  | left h ih => exact .right ih
  | right h ih => exact .left ih

theorem Interleave.sublist_left {a b t : List Ev} (h : Interleave a b t) :
    a.Sublist t := by
  induction h with
  | nil => exact List.Sublist.refl []
  | left h ih => exact List.Sublist.cons₂ _ ih
  | right h ih => exact List.Sublist.cons _ ih

theorem Interleave.append_all (a b : List Ev) : Interleave a b (a ++ b) := by
  induction a with
  | nil =>
    induction b with
    | nil => exact .nil
    | cons y ys ih => exact .right ih
  | cons x xs ih => exact .left ih

/-- If `x` occurs nowhere in `b` and exactly once in `a` (as exhibited
by the decomposition `a = p ++ x :: s`), then any interleaving `t`
contains `x` exactly once, all of `p` embeds before it, and nothing
after it is `x`. -/
theorem interleave_split {a b t : List Ev} {x : Ev}
    (h : Interleave a b t) :
    ∀ {p s : List Ev}, x ∉ b → a = p ++ x :: s → x ∉ p → x ∉ s →
      ∃ t1 t2, t = t1 ++ x :: t2 ∧ p.Sublist t1 ∧ x ∉ t1 ∧ x ∉ t2 := by
  induction h with
  | nil =>
    intro p s hb hps hp hs
    exact absurd hps (by simp)
  | @left y a b t h ih =>
    intro p s hb hps hp hs
    cases p with
    | nil =>
      simp only [List.nil_append, List.cons.injEq] at hps
      obtain ⟨rfl, rfl⟩ := hps
      refine ⟨[], t, rfl, List.nil_sublist _, by simp, ?_⟩
      intro hx
      rcases h.mem hx with h1 | h1
      · exact hs h1
      · exact hb h1
    | cons q p2 =>
      simp only [List.cons_append, List.cons.injEq] at hps
      obtain ⟨rfl, ha⟩ := hps
      have hxq : x ≠ y := fun hh => hp (hh ▸ List.mem_cons_self _ _)
      have hp2 : x ∉ p2 := fun hh => hp (List.mem_cons_of_mem _ hh)
      obtain ⟨t1, t2, rfl, hsub, hx1, hx2⟩ := ih hb ha hp2 hs
      exact ⟨y :: t1, t2, rfl, List.Sublist.cons₂ _ hsub,
             by simp [hxq, hx1], hx2⟩
  | @right y a b t h ih =>
    intro p s hb hps hp hs
    have hxy : x ≠ y := fun hh => hb (hh ▸ List.mem_cons_self _ _)
    have hb2 : x ∉ b := fun hh => hb (List.mem_cons_of_mem _ hh)
    obtain ⟨t1, t2, rfl, hsub, hx1, hx2⟩ := ih hb2 hps hp hs
    exact ⟨y :: t1, t2, rfl, List.Sublist.cons _ hsub,
           by simp [hxy, hx1], hx2⟩

/-- If `c` occurs in `t1` and the completion event `r` does not, then
scanning any extension of `t1` finds `c` before the first `r`. -/
theorem closedBefore_append {c r : Ev} (hcr : c ≠ r) :
    ∀ (t1 l : List Ev), c ∈ t1 → r ∉ t1 →
      closedBefore c r (t1 ++ l) = true := by
  intro t1
  induction t1 with
  | nil => intro l hc _; cases hc
  | cons y ys ih =>
    intro l hc hr
    have hyr : y ≠ r := fun hh => hr (hh ▸ List.mem_cons_self _ _)
    by_cases hyc : y = c
    · simp [closedBefore, hyr, hyc, hcr]
    · rcases List.mem_cons.mp hc with h1 | h1
      · exact absurd h1.symm hyc
      · have hr2 : r ∉ ys := fun hh => hr (List.mem_cons_of_mem _ hh)
        simp [closedBefore, hyr, hyc, ih l h1 hr2]

/-! ### Unfolding lemmas for `exec` -/

theorem exec_command_eq (env : Env) (argv : List String) (i o e : Stream)
    (c : Nat) :
    exec env (.command argv) i o e c =
      (Command.exec env argv i o e, c, [⟨argv, i, o, e⟩]) := rfl

theorem exec_and_err (env : Env) (l r : Expression) (i o e : Stream)
    (c : Nat) (err : SpawnError) (c1 : Nat) (lt : List Spawned)
    (hl : exec env l i o e c = (.error err, c1, lt)) :
    exec env (.and l r) i o e c = (.error err, c1, lt) := by
  simp only [exec, hl]

theorem exec_and_stop (env : Env) (l r : Expression) (i o e : Stream)
    (c : Nat) (lres : Result) (c1 : Nat) (lt : List Spawned)
    (hl : exec env l i o e c = (.ok lres, c1, lt))
    (hrc : lres.returncode ≠ 0) :
    exec env (.and l r) i o e c = (.ok lres, c1, lt) := by
  simp [exec, hl, hrc]

theorem exec_and_go_ok (env : Env) (l r : Expression) (i o e : Stream)
    (c : Nat) (lres : Result) (c1 : Nat) (lt : List Spawned)
    (rres : Result) (c2 : Nat) (rt : List Spawned)
    (hl : exec env l i o e c = (.ok lres, c1, lt))
    (hrc : lres.returncode = 0)
    (hr : exec env r i o e c1 = (.ok rres, c2, rt)) :
    exec env (.and l r) i o e c = (.ok (lres.merge rres), c2, lt ++ rt) := by
  simp [exec, hl, hrc, hr]

theorem exec_and_go_err (env : Env) (l r : Expression) (i o e : Stream)
    (c : Nat) (lres : Result) (c1 : Nat) (lt : List Spawned)
    (err : SpawnError) (c2 : Nat) (rt : List Spawned)
    (hl : exec env l i o e c = (.ok lres, c1, lt))
    (hrc : lres.returncode = 0)
    (hr : exec env r i o e c1 = (.error err, c2, rt)) :
    exec env (.and l r) i o e c = (.error err, c2, lt ++ rt) := by
  simp [exec, hl, hrc, hr]

theorem exec_pipe_rerr (env : Env) (l r : Expression) (i o e : Stream)
    (c : Nat) (lout : Except SpawnError Result) (c1 : Nat)
    (lt : List Spawned) (err : SpawnError) (c2 : Nat) (rt : List Spawned)
    (hl : exec env l i (Stream.fd (c + 1)) e (c + 2) = (lout, c1, lt))
    (hr : exec env r (Stream.fd c) o e c1 = (.error err, c2, rt)) :
    exec env (.pipe l r) i o e c = (.error err, c2, lt ++ rt) := by
  simp only [exec, hl, hr]

theorem exec_pipe_lerr (env : Env) (l r : Expression) (i o e : Stream)
    (c : Nat) (err : SpawnError) (c1 : Nat) (lt : List Spawned)
    (rres : Result) (c2 : Nat) (rt : List Spawned)
    (hl : exec env l i (Stream.fd (c + 1)) e (c + 2) = (.error err, c1, lt))
    (hr : exec env r (Stream.fd c) o e c1 = (.ok rres, c2, rt)) :
    exec env (.pipe l r) i o e c = (.error err, c2, lt ++ rt) := by
  simp only [exec, hl, hr]

theorem exec_pipe_ok (env : Env) (l r : Expression) (i o e : Stream)
    (c : Nat) (lres : Result) (c1 : Nat) (lt : List Spawned)
    (rres : Result) (c2 : Nat) (rt : List Spawned)
    (hl : exec env l i (Stream.fd (c + 1)) e (c + 2) = (.ok lres, c1, lt))
    (hr : exec env r (Stream.fd c) o e c1 = (.ok rres, c2, rt)) :
    exec env (.pipe l r) i o e c =
      (.ok { lres.merge rres with
             returncode := if rres.returncode = 0 then lres.returncode
                           else rres.returncode },
       c2, lt ++ rt) := by
  simp only [exec, hl, hr]

/-! ### Output-capture invariant -/

/-- A node run with a stdout endpoint other than the capture sentinel
produces a `Result` with absent stdout: only `subprocess.PIPE` makes
`communicate` return bytes, and `And`/`Pipe` only merge their
children's streams. -/
theorem exec_stdout_none (env : Env) :
    ∀ (x : Expression) (i o e : Stream) (c : Nat) (res : Result)
      (c2 : Nat) (tr : List Spawned), o ≠ Stream.capture →
      exec env x i o e c = (.ok res, c2, tr) → res.stdout = none := by
  intro x
  induction x with
  | command argv =>
    intro i o e c res c2 tr ho hx
    rw [exec_command_eq] at hx
    simp only [Prod.mk.injEq] at hx
    obtain ⟨h1, -, -⟩ := hx
    simp only [Command.exec] at h1
    cases henv : env argv i o e with
    | error err => rw [henv] at h1; cases h1
    | ok p =>
      rw [henv] at h1
      injection h1 with h1
      subst h1
      simp [if_neg ho]
  | and l r ihl ihr =>
    intro i o e c res c2 tr ho hx
    rcases hL : exec env l i o e c with ⟨lout, cL, lt⟩
    cases lout with
    | error err =>
      rw [exec_and_err env l r i o e c err cL lt hL] at hx
      simp at hx
    | ok lres =>
      by_cases hrc : lres.returncode = 0
      · rcases hR : exec env r i o e cL with ⟨rout, cR, rt⟩
        cases rout with
        | error err =>
          rw [exec_and_go_err env l r i o e c lres cL lt err cR rt hL hrc hR]
            at hx
          simp at hx
        | ok rres =>
          rw [exec_and_go_ok env l r i o e c lres cL lt rres cR rt hL hrc hR]
            at hx
          simp only [Prod.mk.injEq] at hx
          obtain ⟨h1, -, -⟩ := hx
          injection h1 with h1
          subst h1
          have e1 := ihl i o e c lres cL lt ho hL
          have e2 := ihr i o e cL rres cR rt ho hR
          simp [Result.merge, Result.concat, e1, e2]
      · rw [exec_and_stop env l r i o e c lres cL lt hL hrc] at hx
        simp only [Prod.mk.injEq] at hx
        obtain ⟨h1, -, -⟩ := hx
        injection h1 with h1
        subst h1
        exact ihl i o e c lres cL lt ho hL
  | pipe l r ihl ihr =>
    intro i o e c res c2 tr ho hx
    rcases hL : exec env l i (Stream.fd (c + 1)) e (c + 2) with ⟨lout, cL, lt⟩
    rcases hR : exec env r (Stream.fd c) o e cL with ⟨rout, cR, rt⟩
    cases rout with
    | error err =>
      rw [exec_pipe_rerr env l r i o e c lout cL lt err cR rt hL hR] at hx
      simp at hx
    | ok rres =>
      cases lout with
      | error err =>
        rw [exec_pipe_lerr env l r i o e c err cL lt rres cR rt hL hR] at hx
        simp at hx
      | ok lres =>
        rw [exec_pipe_ok env l r i o e c lres cL lt rres cR rt hL hR] at hx
        simp only [Prod.mk.injEq] at hx
        obtain ⟨h1, -, -⟩ := hx
        injection h1 with h1
        subst h1
        have e1 := ihl i (Stream.fd (c + 1)) e (c + 2) lres cL lt (by simp) hL
        have e2 := ihr (Stream.fd c) o e cL rres cR rt ho hR
        simp [Result.merge, Result.concat, e1, e2]

/-! ### Claim theorems -/

/-- Claim C1: for every `Pipe` node, the returncode of the `Result`
returned by `execute` is the rightmost non-zero code: if the right
child's returncode is non-zero it is used; otherwise the left child's
returncode is used. -/
theorem pipe_returncode_rightmost_nonzero (env : Env) (l r : Expression)
    (i o e : Stream) (c : Nat) (lres rres : Result) (c1 c2 : Nat)
    (lt rt : List Spawned)
    (hl : exec env l i (Stream.fd (c + 1)) e (c + 2) = (.ok lres, c1, lt))
    (hr : exec env r (Stream.fd c) o e c1 = (.ok rres, c2, rt)) :
    ∃ res c3 tr, exec env (.pipe l r) i o e c = (.ok res, c3, tr) ∧
      res.returncode =
        if rres.returncode ≠ 0 then rres.returncode else lres.returncode := by
  refine ⟨_, _, _, exec_pipe_ok env l r i o e c lres c1 lt rres c2 rt hl hr, ?_⟩
  by_cases h : rres.returncode = 0 <;> simp [h]

/-- Witness for C1 at `Pipe(Command(false), Command(true))`: right exits
zero, so left's non-zero code surfaces. -/
theorem pipe_returncode_rightmost_nonzero_witness :
    ∃ res c3 tr,
      exec envDemo (.pipe (.command ["false"]) (.command ["true"]))
        Stream.inherit Stream.capture Stream.inherit 0 =
        (.ok res, c3, tr) ∧
      res.returncode = if (0 : Int) ≠ 0 then (0 : Int) else (1 : Int) :=
  pipe_returncode_rightmost_nonzero envDemo (.command ["false"])
    (.command ["true"]) Stream.inherit Stream.capture Stream.inherit 0
    ⟨1, none, none⟩ ⟨0, some [120], none⟩ 2 2
    [⟨["false"], Stream.inherit, Stream.fd 1, Stream.inherit⟩]
    [⟨["true"], Stream.fd 0, Stream.capture, Stream.inherit⟩] rfl rfl

/-- Claim C2: `And` runs left first; on a non-zero left returncode it
returns left's `Result` unchanged and right is never started (the
outcome, descriptor counter and spawn trace are exactly left's);
otherwise it runs right with the same stream triple and returns
`left.merge(right)`. -/
theorem and_short_circuit (env : Env) (l r : Expression) (i o e : Stream)
    (c : Nat) (lres : Result) (c1 : Nat) (lt : List Spawned) :
    (exec env l i o e c = (.ok lres, c1, lt) → lres.returncode ≠ 0 →
      exec env (.and l r) i o e c = (.ok lres, c1, lt)) ∧
    (∀ (rres : Result) (c2 : Nat) (rt : List Spawned),
      exec env l i o e c = (.ok lres, c1, lt) → lres.returncode = 0 →
      exec env r i o e c1 = (.ok rres, c2, rt) →
      exec env (.and l r) i o e c =
        (.ok (lres.merge rres), c2, lt ++ rt)) :=
  ⟨fun hl hrc => exec_and_stop env l r i o e c lres c1 lt hl hrc,
   fun rres c2 rt hl hrc hr =>
     exec_and_go_ok env l r i o e c lres c1 lt rres c2 rt hl hrc hr⟩

/-- Witness for C2 at `And(Command(false), Command(true))`: the spawn
trace contains only the left command. -/
theorem and_short_circuit_witness :
    exec envDemo (.and (.command ["false"]) (.command ["true"]))
      Stream.inherit Stream.capture Stream.inherit 0 =
    (.ok ⟨1, some [], none⟩, 0,
     [⟨["false"], Stream.inherit, Stream.capture, Stream.inherit⟩]) :=
  (and_short_circuit envDemo (.command ["false"]) (.command ["true"])
    Stream.inherit Stream.capture Stream.inherit 0 ⟨1, some [], none⟩ 0
    [⟨["false"], Stream.inherit, Stream.capture, Stream.inherit⟩]).1
    rfl (by decide)

/-- Claim C3: `merge` agrees with the spec's merge algebra: second
returncode, and componentwise concatenation in which an absent stream
is the identity. -/
theorem merge_matches_spec_algebra :
    ∀ a b : Result, a.merge b = mergeSpecModel a b := by
  intro a b
  cases a with
  | mk arc aout aerr =>
    cases b with
    | mk brc bout berr =>
      cases aout <;> cases bout <;> cases aerr <;> cases berr <;> rfl

/-- Claim C4: the `_concat` operation on captured streams is a monoid:
`None` is a two-sided identity, two captured streams concatenate
byte-exactly, and the operation is associative. -/
theorem concat_monoid :
    ∀ (x y z : Option Bytes) (a b : Bytes),
      Result.concat x none = x ∧ Result.concat none y = y ∧
      Result.concat (some a) (some b) = some (a ++ b) ∧
      Result.concat (Result.concat x y) z =
        Result.concat x (Result.concat y z) := by
  intro x y z a b
  refine ⟨?_, rfl, rfl, ?_⟩
  · cases x <;> rfl
  · cases x <;> cases y <;> cases z <;> simp [Result.concat]

/-- Claim C8: a top-level `result()` call runs the root's `_exec` with
the default stream triple (inherit stdin, capture stdout, inherit
stderr, first descriptor 0) on a freshly created event loop, closes
that loop and restores the previous one afterward, and returns the
root's outcome (a `Result` or a propagated spawn failure); a second
call uses a different loop, so no concurrency context is shared across
calls. -/
theorem driver_single_use_loop (env : Env) (expr : Expression)
    (st : DriverState) :
    result env expr st =
      ((exec env expr Stream.inherit Stream.capture Stream.inherit 0).1,
       ⟨st.nextLoopId + 1, st.current⟩, ⟨st.nextLoopId, true⟩) ∧
    (result env expr st).2.2.id + 1 =
      (result env expr (result env expr st).2.1).2.2.id :=
  ⟨rfl, rfl⟩

/-- Claim C7: a spawn failure surfaces as a `SpawnError` out of the
node's `execute` instead of being encoded in a `Result`; `And` and
`Pipe` parents do not catch it — it propagates through them and through
the driver to the caller — and the error outcome carries no partial
`Result` (the `Except.error` constructor has no `Result` field). -/
theorem spawn_error_propagates (env : Env) (argv : List String)
    (l r : Expression) (i o e : Stream) (c : Nat) (err : SpawnError) :
    (env argv i o e = .error err →
      Command.exec env argv i o e = .error err) ∧
    (∀ c1 lt, exec env l i o e c = (.error err, c1, lt) →
      exec env (.and l r) i o e c = (.error err, c1, lt)) ∧
    (∀ lres c1 lt c2 rt, exec env l i o e c = (.ok lres, c1, lt) →
      lres.returncode = 0 → exec env r i o e c1 = (.error err, c2, rt) →
      exec env (.and l r) i o e c = (.error err, c2, lt ++ rt)) ∧
    (∀ lout c1 lt c2 rt,
      exec env l i (Stream.fd (c + 1)) e (c + 2) = (lout, c1, lt) →
      exec env r (Stream.fd c) o e c1 = (.error err, c2, rt) →
      exec env (.pipe l r) i o e c = (.error err, c2, lt ++ rt)) ∧
    (∀ c1 lt rres c2 rt,
      exec env l i (Stream.fd (c + 1)) e (c + 2) = (.error err, c1, lt) →
      exec env r (Stream.fd c) o e c1 = (.ok rres, c2, rt) →
      exec env (.pipe l r) i o e c = (.error err, c2, lt ++ rt)) ∧
    (∀ st : DriverState,
      (exec env l Stream.inherit Stream.capture Stream.inherit 0).1 =
        .error err →
      (result env l st).1 = .error err) := by
  refine ⟨?_, ?_, ?_, ?_, ?_, ?_⟩
  · intro h; simp [Command.exec, h]
  · intro c1 lt hl
    exact exec_and_err env l r i o e c err c1 lt hl
  · intro lres c1 lt c2 rt hl hrc hr
    exact exec_and_go_err env l r i o e c lres c1 lt err c2 rt hl hrc hr
  · intro lout c1 lt c2 rt hl hr
    exact exec_pipe_rerr env l r i o e c lout c1 lt err c2 rt hl hr
  · intro c1 lt rres c2 rt hl hr
    exact exec_pipe_lerr env l r i o e c err c1 lt rres c2 rt hl hr
  · intro st h
    simpa [result, run_single_use_loop] using h

/-- Witness for C7: `And(Command(boom), Command(true))` propagates the
spawn failure of the left command unchanged, with no `Result`. -/
theorem spawn_error_propagates_witness :
    exec envDemo (.and (.command ["boom"]) (.command ["true"]))
      Stream.inherit Stream.capture Stream.inherit 0 =
    (.error (.oserror "No such file or directory"), 0,
     [⟨["boom"], Stream.inherit, Stream.capture, Stream.inherit⟩]) :=
  (spawn_error_propagates envDemo ["boom"] (.command ["boom"])
    (.command ["true"]) Stream.inherit Stream.capture Stream.inherit 0
    (.oserror "No such file or directory")).2.1 0
    [⟨["boom"], Stream.inherit, Stream.capture, Stream.inherit⟩] rfl

/-- Claim C10: the left child of a `Pipe` runs with the pipe's write
descriptor — not the capture sentinel — as its stdout, so its
`Result.stdout` is always absent, and the merged `Result.stdout` of the
`Pipe` equals the right child's captured stdout exactly. -/
theorem pipe_stdout_comes_from_right (env : Env) (l r : Expression)
    (i o e : Stream) (c : Nat) (lres rres : Result) (c1 c2 : Nat)
    (lt rt : List Spawned)
    (hl : exec env l i (Stream.fd (c + 1)) e (c + 2) = (.ok lres, c1, lt))
    (hr : exec env r (Stream.fd c) o e c1 = (.ok rres, c2, rt)) :
    lres.stdout = none ∧
    ∃ res tr, exec env (.pipe l r) i o e c = (.ok res, c2, tr) ∧
      res.stdout = rres.stdout := by
  have hnone :=
    exec_stdout_none env l i (Stream.fd (c + 1)) e (c + 2) lres c1 lt
      (by simp) hl
  refine ⟨hnone, _, _,
    exec_pipe_ok env l r i o e c lres c1 lt rres c2 rt hl hr, ?_⟩
  simp [Result.merge, Result.concat, hnone]

/-- Witness for C10 at `Pipe(Command(false), Command(true))`: left's
stdout is absent and the pipe's stdout is exactly right's capture. -/
theorem pipe_stdout_comes_from_right_witness :
    (⟨1, none, none⟩ : Result).stdout = none ∧
    ∃ res tr,
      exec envDemo (.pipe (.command ["false"]) (.command ["true"]))
        Stream.inherit Stream.capture Stream.inherit 0 =
        (.ok res, 2, tr) ∧
      res.stdout = some [120] :=
  pipe_stdout_comes_from_right envDemo (.command ["false"])
    (.command ["true"]) Stream.inherit Stream.capture Stream.inherit 0
    ⟨1, none, none⟩ ⟨0, some [120], none⟩ 2 2
    [⟨["false"], Stream.inherit, Stream.fd 1, Stream.inherit⟩]
    [⟨["true"], Stream.fd 0, Stream.capture, Stream.inherit⟩] rfl rfl

/-- Claim C5: on every admissible trace of a `Pipe` node — whatever the
outcome of either child — the write end is closed exactly once, and
only after every event of the left child's task (its whole trace embeds
before the unique close); symmetrically for the read end and the right
child.  The hypotheses record that the pipe's close events and the
node's own completion event are fresh: they belong to this `Pipe` node,
not to any child. -/
theorem pipe_close_end_after_child (lt rt : List Ev) (rerr : Bool)
    (cw cr rv : Ev)
    (hwl : cw ∉ lt) (hwr : cw ∉ rt) (hwc : cw ≠ cr) (hwv : cw ≠ rv)
    (hrl : cr ∉ lt) (hrr : cr ∉ rt) (hrv : cr ≠ rv) :
    ∀ t, pipeTaskTraces lt rt rerr cw cr rv t →
      (∃ t1 t2, t = t1 ++ cw :: t2 ∧ lt.Sublist t1 ∧ cw ∉ t1 ∧ cw ∉ t2) ∧
      (∃ t1 t2, t = t1 ++ cr :: t2 ∧ rt.Sublist t1 ∧ cr ∉ t1 ∧ cr ∉ t2) := by
  intro t ht
  cases rerr with
  | true =>
    have h : Interleave (lt ++ [cw]) (rt ++ [cr, rv]) t := ht
    constructor
    · exact interleave_split h (by simp [hwr, hwc, hwv]) rfl hwl (by simp)
    · exact interleave_split h.symm (by simp [hrl, Ne.symm hwc]) rfl hrr
        (by simp [hrv])
  | false =>
    obtain ⟨t0, h0, rfl⟩ := ht
    constructor
    · obtain ⟨t1, t2, heq, hsub, hx1, hx2⟩ :=
        interleave_split h0 (by simp [hwr, hwc]) rfl hwl (by simp)
      exact ⟨t1, t2 ++ [rv], by simp [heq], hsub, hx1, by simp [hx2, hwv]⟩
    · obtain ⟨t1, t2, heq, hsub, hx1, hx2⟩ :=
        interleave_split h0.symm (by simp [hrl, Ne.symm hwc]) rfl hrr
          (by simp)
      exact ⟨t1, t2 ++ [rv], by simp [heq], hsub, hx1, by simp [hx2, hrv]⟩

/-- Witness for C5 on a concrete schedule of
`Pipe(Command(a), Command(b))`: the single close of the write end comes
after the left task's events. -/
theorem pipe_close_end_after_child_witness :
    ∃ t1 t2,
      [Ev.spawn ["b"], Ev.spawn ["a"], Ev.close 4, Ev.close 3, Ev.ret 0] =
        t1 ++ Ev.close 4 :: t2 ∧
      List.Sublist [Ev.spawn ["a"]] t1 ∧
      Ev.close 4 ∉ t1 ∧ Ev.close 4 ∉ t2 := by
  refine (pipe_close_end_after_child [Ev.spawn ["a"]] [Ev.spawn ["b"]]
    false (Ev.close 4) (Ev.close 3) (Ev.ret 0) (by decide) (by decide)
    (by decide) (by decide) (by decide) (by decide) (by decide) _ ?_).1
  show ∃ t0, Interleave ([Ev.spawn ["a"]] ++ [Ev.close 4])
      ([Ev.spawn ["b"]] ++ [Ev.close 3]) t0 ∧
    [Ev.spawn ["b"], Ev.spawn ["a"], Ev.close 4, Ev.close 3, Ev.ret 0] =
      t0 ++ [Ev.ret 0]
  exact ⟨[Ev.spawn ["b"], Ev.spawn ["a"], Ev.close 4, Ev.close 3],
    .right (.left (.left (.right .nil))), rfl⟩

/-- Counterexample to claim C6: when the right child's task fails while
the left task is still running, `Pipe._exec` propagates the failure at
that point and the write end is closed only after the left task later
completes — so it is not true that both ends are closed before
`execute` returns in every case.  The trace
`[close read, pipe returns, left spawns, close write]` is admissible. -/
theorem pipe_ends_closed_before_ret_cex :
    ¬ bothClosedBeforeRet [Ev.spawn ["sleep"]] [] true
      (Ev.close 4) (Ev.close 3) (Ev.ret 0) := by
  intro h
  have ht : pipeTaskTraces [Ev.spawn ["sleep"]] [] true
      (Ev.close 4) (Ev.close 3) (Ev.ret 0)
      [Ev.close 3, Ev.ret 0, Ev.spawn ["sleep"], Ev.close 4] := by
    show Interleave ([Ev.spawn ["sleep"]] ++ [Ev.close 4])
      ([] ++ [Ev.close 3, Ev.ret 0])
      [Ev.close 3, Ev.ret 0, Ev.spawn ["sleep"], Ev.close 4]
    exact .right (.right (.left (.left .nil)))
  exact absurd (h _ ht).1 (by decide)

/-- Claim C6 as amended: the pipe's two ends are both closed before
`execute` returns whenever the right child's task did not fail (that
covers returning a `Result` and propagating a left-child failure); when
the right child's task fails, the read end is still closed before the
failure propagates, but the write end is only guaranteed to close when
the left task completes, possibly after the return. -/
theorem pipe_ends_closed_before_ret_amended (lt rt : List Ev)
    (cw cr rv : Ev)
    (hvl : rv ∉ lt) (hvr : rv ∉ rt) (hvw : cw ≠ rv) (hvc : cr ≠ rv) :
    bothClosedBeforeRet lt rt false cw cr rv ∧
    (∀ t, pipeTaskTraces lt rt true cw cr rv t →
      closedBefore cr rv t = true) := by
  constructor
  · intro t ht
    obtain ⟨t0, h0, rfl⟩ := ht
    have hrvt0 : rv ∉ t0 := by
      intro hmem
      rcases h0.mem hmem with h1 | h1
      · rcases List.mem_append.mp h1 with h2 | h2
        · exact hvl h2
        · simp at h2; exact hvw h2.symm
      · rcases List.mem_append.mp h1 with h2 | h2
        · exact hvr h2
        · simp at h2; exact hvc h2.symm
    have hcw : cw ∈ t0 := h0.sublist_left.subset (by simp)
    have hcr : cr ∈ t0 := h0.symm.sublist_left.subset (by simp)
    exact ⟨closedBefore_append hvw t0 [rv] hcw hrvt0,
           closedBefore_append hvc t0 [rv] hcr hrvt0⟩
  · intro t ht
    have h : Interleave (lt ++ [cw]) (rt ++ [cr, rv]) t := ht
    obtain ⟨t1, t2, heq, hsub, hx1, hx2⟩ :=
      interleave_split h.symm (by simp [hvl, Ne.symm hvw])
        (show rt ++ [cr, rv] = (rt ++ [cr]) ++ rv :: [] by simp)
        (by simp [hvr, Ne.symm hvc]) (by simp)
    subst heq
    exact closedBefore_append hvc t1 (rv :: t2) (hsub.subset (by simp)) hx1

/-- Witness for the amended C6: on the failing schedule of the
counterexample, the read end is indeed closed before the return. -/
theorem pipe_ends_closed_before_ret_amended_witness :
    closedBefore (Ev.close 3) (Ev.ret 0)
      [Ev.close 3, Ev.ret 0, Ev.spawn ["sleep"], Ev.close 4] = true := by
  refine (pipe_ends_closed_before_ret_amended [Ev.spawn ["sleep"]] []
    (Ev.close 4) (Ev.close 3) (Ev.ret 0) (by decide) (by decide)
    (by decide) (by decide)).2 _ ?_
  show Interleave ([Ev.spawn ["sleep"]] ++ [Ev.close 4])
    ([] ++ [Ev.close 3, Ev.ret 0])
    [Ev.close 3, Ev.ret 0, Ev.spawn ["sleep"], Ev.close 4]
  exact .right (.right (.left (.left .nil)))

/-- Claim C9: the two children of a `Pipe` run as independently
schedulable concurrent tasks, both started before either is awaited:
every interleaving of the two task event streams is an admissible trace
of the node — in particular the schedule on which the right task runs
to completion before the left task takes a single step, and the
converse one, are both admissible, so neither task's progress waits on
the other. -/
theorem pipe_children_concurrent (lt rt : List Ev) (cw cr rv : Ev) :
    (∀ t0, Interleave (lt ++ [cw]) (rt ++ [cr]) t0 →
      pipeTaskTraces lt rt false cw cr rv (t0 ++ [rv])) ∧
    pipeTaskTraces lt rt false cw cr rv
      (((lt ++ [cw]) ++ (rt ++ [cr])) ++ [rv]) ∧
    pipeTaskTraces lt rt false cw cr rv
      (((rt ++ [cr]) ++ (lt ++ [cw])) ++ [rv]) := by
  refine ⟨fun t0 h => ⟨t0, h, rfl⟩,
    ⟨(lt ++ [cw]) ++ (rt ++ [cr]), Interleave.append_all _ _, rfl⟩,
    ⟨(rt ++ [cr]) ++ (lt ++ [cw]), (Interleave.append_all _ _).symm, rfl⟩⟩

/-- Witness for C9: a concrete schedule in which the right task runs
fully before the left task starts is admissible. -/
theorem pipe_children_concurrent_witness :
    pipeTaskTraces [Ev.spawn ["a"]] [Ev.spawn ["b"]] false (Ev.close 4)
      (Ev.close 3) (Ev.ret 0)
      ([Ev.spawn ["b"], Ev.close 3, Ev.spawn ["a"], Ev.close 4] ++
        [Ev.ret 0]) :=
  (pipe_children_concurrent [Ev.spawn ["a"]] [Ev.spawn ["b"]]
    (Ev.close 4) (Ev.close 3) (Ev.ret 0)).1
    [Ev.spawn ["b"], Ev.close 3, Ev.spawn ["a"], Ev.close 4]
    (.right (.right (.left (.left .nil))))

end Tubes
